import Mathlib

/-!
LED port driver and GPIO pin layer.

A shallow embedding of `src/leds.c` and `src/gpio.c`.

Conventions of the embedding:

* C objects live in an explicit memory that is passed through every call.
  A pointer is a natural number, `NULL` is `0`.
* Dereferencing `NULL`, shifting an `int` by a negative amount, by the width
  of `int` or more, or so far that the result does not fit in `int`, is
  undefined behaviour in C.  A function of the embedding returns `none`
  where the C function runs into undefined behaviour and `some _` otherwise.
* `int` is 32 bits wide, two's complement.  A `uint16_t` operand of `|`, `&`,
  `~` or `==` is first promoted to `int`; an `int` assigned to a `uint16_t`
  object is reduced modulo `2 ^ 16`.  Bit patterns of `int` values are kept as
  natural numbers below `2 ^ 32`.
-/

namespace Leds

/-- The null pointer constant of `<stddef.h>`. -/
def NULL : Nat := 0

/-- Macro `LEDS_LSB`, defined as `0x0001`. -/
def LEDS_LSB : Nat := 0x0001

/-- Macro `LEDS_LAST_LED`, defined as `16`. -/
def LEDS_LAST_LED : Int := 16

/-- Macro `LEDS_FIRST_LED`, defined as `1`. -/
def LEDS_FIRST_LED : Int := 1

/-- Macro `LEDS_LED_OFFSET`, defined as `1`. -/
def LEDS_LED_OFFSET : Int := 1

/-- Macro `LEDS_ALL_OFF`, defined as `0x0000`. -/
def LEDS_ALL_OFF : Nat := 0x0000

/-- Macro `LEDS_ALL_ON`, defined as `0xFFFF`. -/
def LEDS_ALL_ON : Nat := 0xFFFF

/-- Width of `int` in bits. -/
def INT_WIDTH : Nat := 32

/-- Largest value of `int`. -/
def INT_MAX : Nat := 2 ^ 31 - 1

/-- Conversion of a non-negative `int` value to `uint16_t`. -/
def toUint16 (v : Nat) : Nat := v % 2 ^ 16

/-- Bit pattern of `~x` for an `int` whose bit pattern is `x`. -/
def bitNot (x : Nat) : Nat := (2 ^ INT_WIDTH - 1) - x % 2 ^ INT_WIDTH

/-- The program state seen by `leds.c`: the file-scope pointer `_leds_port`
and the memory of 16-bit cells it may point into. -/
structure LedsState where
  /-- The file-scope object `static uint16_t * _leds_port;`. -/
  _leds_port : Nat
  /-- Content of the `uint16_t` object at each address. -/
  mem : Nat → Nat

/-- Reading `*p` for a `uint16_t * p`. -/
def load (s : LedsState) (p : Nat) : Option Nat :=
  if p = NULL then none else some (s.mem p)

/-- Writing `*p = v` for a `uint16_t * p`. -/
def store (s : LedsState) (p v : Nat) : Option LedsState :=
  if p = NULL then none
  else some { s with mem := fun a => if a = p then toUint16 v else s.mem a }

/-- The function `static uint16_t indexToMask(int led)`, whose body is
`return LEDS_LSB << (led - LEDS_LED_OFFSET);`.  The shift is carried out on `int`,
the result converted to `uint16_t`. -/
def indexToMask (led : Int) : Option Nat :=
  let sh := led - LEDS_LED_OFFSET
  if 0 ≤ sh ∧ sh < INT_WIDTH ∧ LEDS_LSB <<< sh.toNat ≤ INT_MAX then
    some (toUint16 (LEDS_LSB <<< sh.toNat))
  else
    none

/-- The function `static bool isValidIndex(int led)`, whose body is
`return ((LEDS_LAST_LED >= led) && (LEDS_FIRST_LED <= led));`. -/
def isValidIndex (led : Int) : Bool :=
  decide (LEDS_LAST_LED ≥ led) && decide (LEDS_FIRST_LED ≤ led)

/-- The function `void LEDs_SetAllOff(void)`, whose body is `*_leds_port = LEDS_ALL_OFF;`. -/
def LEDs_SetAllOff (s : LedsState) : Option LedsState :=
  store s s._leds_port LEDS_ALL_OFF

/-- The function `bool LEDs_Create(uint16_t * port_address)`. -/
def LEDs_Create (s : LedsState) (port_address : Nat) : Option (Bool × LedsState) :=
  if NULL = port_address then
    some (false, s)
  else do
    let s1 := { s with _leds_port := port_address }
    let s2 ← LEDs_SetAllOff s1
    some (true, s2)

/-- The function `bool LEDs_SetOff(int led)`; a valid index runs
`*_leds_port &= ~indexToMask(led);`. -/
def LEDs_SetOff (s : LedsState) (led : Int) : Option (Bool × LedsState) :=
  if isValidIndex led then do
    let m ← indexToMask led
    let r ← load s s._leds_port
    let s1 ← store s s._leds_port (r &&& bitNot m)
    some (true, s1)
  else
    some (false, s)

/-- The function `bool LEDs_SetOn(int led)`; a valid index runs
`*_leds_port |= indexToMask(led);`. -/
def LEDs_SetOn (s : LedsState) (led : Int) : Option (Bool × LedsState) :=
  if isValidIndex led then do
    let m ← indexToMask led
    let r ← load s s._leds_port
    let s1 ← store s s._leds_port (r ||| m)
    some (true, s1)
  else
    some (false, s)

/-- The function `void LEDs_SetAllOn(void)`, whose body is `*_leds_port = LEDS_ALL_ON;`. -/
def LEDs_SetAllOn (s : LedsState) : Option LedsState :=
  store s s._leds_port LEDS_ALL_ON

/-- The function `bool LEDs_IsOn(int led)`, whose body is
`return (indexToMask(led) == (*_leds_port & indexToMask(led)));`. -/
def LEDs_IsOn (s : LedsState) (led : Int) : Option (Bool × LedsState) := do
  let m1 ← indexToMask led
  let r ← load s s._leds_port
  let m2 ← indexToMask led
  some (decide (m1 = (r &&& m2)), s)

/-- A state whose port pointer is `p` and whose only non-zero cell is `p`, holding `r`. -/
def mkState (p r : Nat) : LedsState :=
  { _leds_port := p, mem := fun a => if a = p then r else 0 }

/-- One call of the driver's interface, as a caller issues it. -/
inductive LedCall where
  | setOn (led : Int)
  | setOff (led : Int)
  | setAllOn
  | setAllOff
  | isOn (led : Int)
  deriving DecidableEq

/-- The index a call names, if it names one. -/
def LedCall.led? : LedCall → Option Int
  | .setOn led => some led
  | .setOff led => some led
  | .isOn led => some led
  | .setAllOn => none
  | .setAllOff => none

/-- Executing one call: the value returned (`none` for a `void` function) and the
state afterwards. -/
def runCall (s : LedsState) : LedCall → Option (Option Bool × LedsState)
  | .setOn led => (LEDs_SetOn s led).map fun x => (some x.1, x.2)
  | .setOff led => (LEDs_SetOff s led).map fun x => (some x.1, x.2)
  | .setAllOn => (LEDs_SetAllOn s).map fun s1 => (none, s1)
  | .setAllOff => (LEDs_SetAllOff s).map fun s1 => (none, s1)
  | .isOn led => (LEDs_IsOn s led).map fun x => (some x.1, x.2)

/-- Executing a sequence of calls in order, collecting the returned values. -/
def runCalls (s : LedsState) : List LedCall → Option (List (Option Bool) × LedsState)
  | [] => some ([], s)
  | c :: cs => do
    let x ← runCall s c
    let y ← runCalls x.2 cs
    some (x.1 :: y.1, y.2)

/-- The call is `LEDs_SetOn(led)` or `LEDs_SetOff(led)` with `1 ≤ led ≤ 16`. -/
def LedCall.isValidSet : LedCall → Prop
  | .setOn led => 1 ≤ led ∧ led ≤ 16
  | .setOff led => 1 ≤ led ∧ led ≤ 16
  | _ => False

/-- The call does not query an index outside `1..16` (the setters reject such an
index themselves, `LEDs_IsOn` does not). -/
def LedCall.queriesValid : LedCall → Prop
  | .isOn led => 1 ≤ led ∧ led ≤ 16
  | _ => True

/-- The last call of the sequence that names index `i`, if any does. -/
def lastCallNaming (calls : List LedCall) (i : Int) : Option LedCall :=
  (calls.filter fun c => decide (c.led? = some i)).getLast?

/-- The call is a `LEDs_SetOn`. -/
def LedCall.isSetOn : LedCall → Bool
  | .setOn _ => true
  | _ => false

/-- Whether the last call of the sequence that names index `i` is a `LEDs_SetOn`. -/
def lastCallIsSetOn (calls : List LedCall) (i : Int) : Bool :=
  match lastCallNaming calls i with
  | some c => c.isSetOn
  | none => false

/-- The state with the bound register overwritten by `v`. -/
def setReg (s : LedsState) (v : Nat) : LedsState :=
  { s with mem := fun a => if a = s._leds_port then v else s.mem a }

/-- Effect of one call on the content `r` of the bound register. -/
def regStep (r : Nat) : LedCall → Nat
  | .setOn led =>
    if isValidIndex led then toUint16 (r ||| 2 ^ (led - 1).toNat) else r
  | .setOff led =>
    if isValidIndex led then toUint16 (r &&& bitNot (2 ^ (led - 1).toNat)) else r
  | .setAllOn => 0xFFFF
  | .setAllOff => 0x0000
  | .isOn _ => r

/-- Value returned by one call when the bound register holds `r`. -/
def regResult (r : Nat) : LedCall → Option Bool
  | .setOn led => some (isValidIndex led)
  | .setOff led => some (isValidIndex led)
  | .setAllOn => none
  | .setAllOff => none
  | .isOn led => some (r.testBit (led - 1).toNat)

/-- Content of the bound register after a sequence of calls, starting from `r`. -/
def regAfter (r : Nat) : List LedCall → Nat
  | [] => r
  | c :: cs => regAfter (regStep r c) cs

/-- Values returned by a sequence of calls, starting from register content `r`. -/
def regResults (r : Nat) : List LedCall → List (Option Bool)
  | [] => []
  | c :: cs => regResult r c :: regResults (regStep r c) cs

end Leds

namespace Gpio

/-- The null pointer constant of `<stddef.h>`. -/
def NULL : Nat := 0

/-- Byte offset of `port` in `struct gpio_s { uint8_t port; uint8_t bit; bool output; bool used; }`. -/
def gpio_s.port : Nat := 0

/-- Byte offset of `bit` in `struct gpio_s`. -/
def gpio_s.bit : Nat := 1

/-- Byte offset of `output` in `struct gpio_s`. -/
def gpio_s.output : Nat := 2

/-- Byte offset of `used` in `struct gpio_s`. -/
def gpio_s.used : Nat := 3

/-- Byte-addressed memory holding the pin objects; a `bool` is stored as `0` or `1`. -/
abbrev Memory := Nat → Nat

/-- Writing one byte-sized member: `*(a) = v`. -/
def storeByte (m : Memory) (a v : Nat) : Memory :=
  fun x => if x = a then v else m x

/-- The function `gpio_t gpioCreate(uint8_t puerto, uint8_t bit)`.  The allocation
(`malloc(sizeof(struct gpio_s))` under `USE_DYNAMIC_MEM`, `allocateInstance()`
otherwise) is the parameter `alloc`: it yields a pointer, `NULL` on failure, and
the memory after the allocation. -/
def gpioCreate (alloc : Memory → Nat × Memory) (m : Memory) (puerto bit : Nat) :
    Nat × Memory :=
  let self := (alloc m).1
  let m0 := (alloc m).2
  if self ≠ NULL then
    let m1 := storeByte m0 (self + gpio_s.port) puerto
    let m2 := storeByte m1 (self + gpio_s.bit) bit
    let m3 := storeByte m2 (self + gpio_s.output) 0
    (self, m3)
  else
    (self, m0)

/-- An allocator that hands out the fixed address `a` and leaves memory alone. -/
def allocAt (a : Nat) : Memory → Nat × Memory :=
  fun m => (a, m)

/-- Macro `GPIO_MAX_INSTANCES`, defined as `10` unless the build defines it. -/
def GPIO_MAX_INSTANCES : Nat := 10

/-- Size in bytes of `struct gpio_s`: four members of one byte each, so that
`instances[index]` starts at `instances + index * gpio_s.size`. -/
def gpio_s.size : Nat := 4

/-- The `for` loop of `allocateInstance` with `count` iterations left, at `index`.
A slot is free when its `used` byte is zero.  For a free slot the source assigns
`result = &instances[index].used;`, the address of the member `used`, and then
runs `result->used = true;` through that pointer, which writes the byte
`gpio_s.used` further on.  Every access is carried out at the byte address the
expressions denote. -/
def allocateInstance.loop (instances : Nat) (m : Memory) : Nat → Nat → Nat × Memory
  | 0, _ => (NULL, m)
  | count + 1, index =>
    if m (instances + index * gpio_s.size + gpio_s.used) = 0 then
      let result := instances + index * gpio_s.size + gpio_s.used
      (result, storeByte m (result + gpio_s.used) 1)
    else
      allocateInstance.loop instances m count (index + 1)

/-- The function `static gpio_t allocateInstance()`; `instances` is the address of
its `static struct gpio_s instances[GPIO_MAX_INSTANCES]`. -/
def allocateInstance (instances : Nat) (m : Memory) : Nat × Memory :=
  allocateInstance.loop instances m GPIO_MAX_INSTANCES 0

/-- Successive `gpioCreate` calls, one per `(puerto, bit)` pair of the list: the
handles they return, in order, and the memory afterwards. -/
def gpioCreateMany (alloc : Memory → Nat × Memory) (m : Memory) :
    List (Nat × Nat) → List Nat × Memory
  | [] => ([], m)
  | a :: rest =>
    let r := gpioCreate alloc m a.1 a.2
    let rs := gpioCreateMany alloc r.2 rest
    (r.1 :: rs.1, rs.2)

/-- The hardware abstraction layer `gpio.c` calls through the macros
`HAL_GPIO_SET_OUTPUT(port, bit)`, `HAL_GPIO_SET_STATE(port, bit)` and
`HAL_GPIO_GET_STATE(port, bit)`.  The repository does not define them, so they are
parameters: each takes the two arguments the source passes and acts on a hardware
state of type `Hw`. -/
structure Hal (Hw : Type) where
  /-- What `HAL_GPIO_SET_OUTPUT(port, bit)` does to the hardware. -/
  HAL_GPIO_SET_OUTPUT : Nat → Nat → Hw → Hw
  /-- What `HAL_GPIO_SET_STATE(port, bit)` does to the hardware. -/
  HAL_GPIO_SET_STATE : Nat → Nat → Hw → Hw
  /-- What `HAL_GPIO_GET_STATE(port, bit)` returns and does to the hardware. -/
  HAL_GPIO_GET_STATE : Nat → Nat → Hw → Bool × Hw

/-- The state `gpio.c` runs in: the memory holding the pin objects and the state
of the hardware behind the abstraction layer. -/
structure GpioState (Hw : Type) where
  /-- Memory holding the pin objects. -/
  mem : Memory
  /-- State of the hardware. -/
  hw : Hw

/-- The function `void gpioSetOutput(gpio_t self, bool output)`, whose body is
`HAL_GPIO_SET_OUTPUT(self->port, self->bit);`. -/
def gpioSetOutput {Hw : Type} (hal : Hal Hw) (s : GpioState Hw) (self : Nat) (output : Bool) :
    Option (GpioState Hw) :=
  if self = NULL then none
  else some { s with
    hw := hal.HAL_GPIO_SET_OUTPUT (s.mem (self + gpio_s.port)) (s.mem (self + gpio_s.bit)) s.hw }

/-- The function `void gpioSetState(gpio_t self, bool state)`, whose body is
`HAL_GPIO_SET_STATE(self->port, self->bit);`. -/
def gpioSetState {Hw : Type} (hal : Hal Hw) (s : GpioState Hw) (self : Nat) (state : Bool) :
    Option (GpioState Hw) :=
  if self = NULL then none
  else some { s with
    hw := hal.HAL_GPIO_SET_STATE (s.mem (self + gpio_s.port)) (s.mem (self + gpio_s.bit)) s.hw }

/-- The function `bool gpioGetState(gpio_t self)`, whose body is
`return HAL_GPIO_GET_STATE(self->port, self->bit);`. -/
def gpioGetState {Hw : Type} (hal : Hal Hw) (s : GpioState Hw) (self : Nat) :
    Option (Bool × GpioState Hw) :=
  if self = NULL then none
  else
    let r := hal.HAL_GPIO_GET_STATE (s.mem (self + gpio_s.port)) (s.mem (self + gpio_s.bit)) s.hw
    some (r.1, { s with hw := r.2 })

/-- One call on a pin handle, as a caller issues it. -/
inductive PinCall where
  | setOutput (output : Bool)
  | setState (state : Bool)
  | getState
  deriving DecidableEq

/-- Executing one call on the handle `self`: the value returned (`none` for a
`void` function) and the state afterwards. -/
def runPinCall {Hw : Type} (hal : Hal Hw) (s : GpioState Hw) (self : Nat) :
    PinCall → Option (Option Bool × GpioState Hw)
  | .setOutput output => (gpioSetOutput hal s self output).map fun s1 => (none, s1)
  | .setState state => (gpioSetState hal s self state).map fun s1 => (none, s1)
  | .getState => (gpioGetState hal s self).map fun x => (some x.1, x.2)

/-- Executing a sequence of calls on the handle `self`, collecting the returned values. -/
def runPinCalls {Hw : Type} (hal : Hal Hw) (s : GpioState Hw) (self : Nat) :
    List PinCall → Option (List (Option Bool) × GpioState Hw)
  | [] => some ([], s)
  | c :: cs => do
    let x ← runPinCall hal s self c
    let y ← runPinCalls hal x.2 self cs
    some (x.1 :: y.1, y.2)

/-- A request as the hardware abstraction layer receives it: which macro was
invoked and with which two arguments. -/
inductive HalRequest where
  | setOutput (port bit : Nat)
  | setState (port bit : Nat)
  | getState (port bit : Nat)
  deriving DecidableEq

/-- The port a request is addressed to. -/
def HalRequest.port : HalRequest → Nat
  | .setOutput port _ => port
  | .setState port _ => port
  | .getState port _ => port

/-- The bit a request is addressed to. -/
def HalRequest.bit : HalRequest → Nat
  | .setOutput _ bit => bit
  | .setState _ bit => bit
  | .getState _ bit => bit

/-- An abstraction layer that keeps the list of the requests it received, oldest
first, and answers a state read with `read port bit`. -/
def recordingHal (read : Nat → Nat → Bool) : Hal (List HalRequest) where
  HAL_GPIO_SET_OUTPUT := fun port bit log => log ++ [.setOutput port bit]
  HAL_GPIO_SET_STATE := fun port bit log => log ++ [.setState port bit]
  HAL_GPIO_GET_STATE := fun port bit log => (read port bit, log ++ [.getState port bit])

/-- The request a call on a pin puts to the abstraction layer when it is addressed
to `(port, bit)`. -/
def requestOf (port bit : Nat) : PinCall → HalRequest
  | .setOutput _ => .setOutput port bit
  | .setState _ => .setState port bit
  | .getState => .getState port bit

/-- The primitive a call on a pin stands for, addressed to `(port, bit)`: the value
it yields and the hardware state afterwards. -/
def halCall {Hw : Type} (hal : Hal Hw) (port bit : Nat) (hw : Hw) : PinCall → Option Bool × Hw
  | .setOutput _ => (none, hal.HAL_GPIO_SET_OUTPUT port bit hw)
  | .setState _ => (none, hal.HAL_GPIO_SET_STATE port bit hw)
  | .getState =>
    (some (hal.HAL_GPIO_GET_STATE port bit hw).1, (hal.HAL_GPIO_GET_STATE port bit hw).2)

/-- The primitives a sequence of calls on a pin stands for, all addressed to
`(port, bit)`. -/
def halCalls {Hw : Type} (hal : Hal Hw) (port bit : Nat) (hw : Hw) :
    List PinCall → List (Option Bool) × Hw
  | [] => ([], hw)
  | c :: cs =>
    let x := halCall hal port bit hw c
    let y := halCalls hal port bit x.2 cs
    (x.1 :: y.1, y.2)

end Gpio

namespace Leds

/-! ## Arithmetic facts used by the proofs -/

theorem isValidIndex_iff (led : Int) : isValidIndex led = true ↔ 1 ≤ led ∧ led ≤ 16 := by
  simp only [isValidIndex, LEDS_LAST_LED, LEDS_FIRST_LED, Bool.and_eq_true, decide_eq_true_eq]
  omega

theorem isValidIndex_eq_false (led : Int) (h : ¬ (1 ≤ led ∧ led ≤ 16)) :
    isValidIndex led = false := by
  cases hv : isValidIndex led with
  | false => rfl
  | true => exact absurd ((isValidIndex_iff led).1 hv) h

theorem indexToMask_of_valid {led : Int} (h1 : 1 ≤ led) (h2 : led ≤ 16) :
    indexToMask led = some (2 ^ (led - 1).toNat) := by
  interval_cases led <;> rfl

theorem toNat_pred_lt {led : Int} (h1 : 1 ≤ led) (h2 : led ≤ 16) : (led - 1).toNat < 16 := by
  omega

theorem toNat_pred_inj {i j : Int} (hi : 1 ≤ i) (hj : 1 ≤ j) (h : (i - 1).toNat = (j - 1).toNat) :
    i = j := by
  omega

theorem two_pow_lt_of_lt {k : Nat} (hk : k < 16) : 2 ^ k < 2 ^ 16 :=
  Nat.pow_lt_pow_right (by decide) hk

theorem mask_eq_and_iff (x k : Nat) : 2 ^ k = x &&& 2 ^ k ↔ x.testBit k = true := by
  constructor
  · intro h
    have h2 := congrArg (fun n => Nat.testBit n k) h
    simpa [Nat.testBit_two_pow_self] using h2.symm
  · intro h
    apply Nat.eq_of_testBit_eq
    intro i
    rw [Nat.testBit_and, Nat.testBit_two_pow]
    by_cases hki : k = i
    · subst hki; simp [h]
    · simp [hki]

theorem testBit_bitNot {m : Nat} (hm : m < 2 ^ 32) (i : Nat) :
    (bitNot m).testBit i = (decide (i < 32) && !m.testBit i) := by
  have h : bitNot m = 2 ^ 32 - (m + 1) := by
    unfold bitNot INT_WIDTH
    rw [Nat.mod_eq_of_lt hm]
    omega
  rw [h, Nat.testBit_two_pow_sub_succ hm]

theorem testBit_toUint16 (v i : Nat) :
    (toUint16 v).testBit i = (decide (i < 16) && v.testBit i) := by
  unfold toUint16
  rw [Nat.testBit_mod_two_pow]

theorem testBit_of_lt_uint16 {r : Nat} (hr : r < 2 ^ 16) {i : Nat} (hi : 16 ≤ i) :
    r.testBit i = false :=
  Nat.testBit_lt_two_pow (Nat.lt_of_lt_of_le hr (Nat.pow_le_pow_right (by decide) hi))

theorem toUint16_or_mask {r k : Nat} (hr : r < 2 ^ 16) (hk : k < 16) :
    toUint16 (r ||| 2 ^ k) = r ||| 2 ^ k :=
  Nat.mod_eq_of_lt (Nat.or_lt_two_pow hr (two_pow_lt_of_lt hk))

theorem testBit_clear (r k i : Nat) :
    (toUint16 (r &&& bitNot (2 ^ k))).testBit i =
      (decide (i < 16) && r.testBit i && !decide (k = i)) := by
  by_cases hk : k < 32
  · have hm : 2 ^ k < 2 ^ 32 := Nat.pow_lt_pow_right (by decide) hk
    rw [testBit_toUint16, Nat.testBit_and, testBit_bitNot hm, Nat.testBit_two_pow]
    by_cases hi : i < 16
    · have hi2 : i < 32 := by omega
      simp [hi, hi2]
    · simp [hi]
  · rw [testBit_toUint16, Nat.testBit_and]
    by_cases hi : i < 16
    · have hne : ¬ k = i := by omega
      have hb : bitNot (2 ^ k) = 2 ^ 32 - 1 - 2 ^ k % 2 ^ 32 := rfl
      have hz : 2 ^ k % 2 ^ 32 = 0 := by
        apply Nat.mod_eq_zero_of_dvd
        exact Nat.pow_dvd_pow 2 (by omega)
      rw [hb, hz, Nat.sub_zero, Nat.testBit_two_pow_sub_one]
      have hi2 : i < 32 := by omega
      simp [hi, hi2, hne]
    · simp [hi]

/-- The 16-bit value written by `LEDs_SetOff` is `r` with the mask's bit cleared,
that is `r AND (0xFFFF XOR mask)`. -/
theorem toUint16_and_bitNot {r : Nat} (hr : r < 2 ^ 16) (k : Nat) :
    toUint16 (r &&& bitNot (2 ^ k)) = r &&& (0xFFFF ^^^ 2 ^ k) := by
  apply Nat.eq_of_testBit_eq
  intro i
  rw [testBit_clear, Nat.testBit_and, Nat.testBit_xor, Nat.testBit_two_pow]
  have hff : (0xFFFF : Nat).testBit i = decide (i < 16) := by
    have : (0xFFFF : Nat) = 2 ^ 16 - 1 := by norm_num
    rw [this, Nat.testBit_two_pow_sub_one]
  rw [hff]
  by_cases hi : i < 16
  · by_cases hki : k = i <;> simp [hi, hki]
  · have := testBit_of_lt_uint16 hr (Nat.le_of_not_lt hi)
    simp [hi, this]

/-! ## The driver calls on a bound port -/

theorem decide_mask_eq (x k : Nat) : decide (2 ^ k = x &&& 2 ^ k) = x.testBit k := by
  cases hb : x.testBit k with
  | true => exact decide_eq_true ((mask_eq_and_iff x k).2 hb)
  | false =>
    apply decide_eq_false
    intro h
    rw [(mask_eq_and_iff x k).1 h] at hb
    exact Bool.noConfusion hb

theorem LEDs_SetOn_valid_eq (s : LedsState) {led : Int} (hp : s._leds_port ≠ NULL)
    (h1 : 1 ≤ led) (h2 : led ≤ 16) :
    LEDs_SetOn s led = some (true, { s with mem := fun a =>
      (if a = s._leds_port then toUint16 (s.mem s._leds_port ||| 2 ^ (led - 1).toNat)
       else s.mem a) }) := by
  unfold LEDs_SetOn
  rw [(isValidIndex_iff led).2 ⟨h1, h2⟩, indexToMask_of_valid h1 h2]
  simp [load, store, hp]

theorem LEDs_SetOff_valid_eq (s : LedsState) {led : Int} (hp : s._leds_port ≠ NULL)
    (h1 : 1 ≤ led) (h2 : led ≤ 16) :
    LEDs_SetOff s led = some (true, { s with mem := fun a =>
      (if a = s._leds_port then
         toUint16 (s.mem s._leds_port &&& bitNot (2 ^ (led - 1).toNat))
       else s.mem a) }) := by
  unfold LEDs_SetOff
  rw [(isValidIndex_iff led).2 ⟨h1, h2⟩, indexToMask_of_valid h1 h2]
  simp [load, store, hp]

theorem LEDs_IsOn_valid_eq (s : LedsState) {led : Int} (hp : s._leds_port ≠ NULL)
    (h1 : 1 ≤ led) (h2 : led ≤ 16) :
    LEDs_IsOn s led = some ((s.mem s._leds_port).testBit (led - 1).toNat, s) := by
  unfold LEDs_IsOn
  rw [indexToMask_of_valid h1 h2]
  simp [load, hp, decide_mask_eq]

theorem LEDs_SetAllOff_eq (s : LedsState) (hp : s._leds_port ≠ NULL) :
    LEDs_SetAllOff s = some { s with mem := fun a =>
      (if a = s._leds_port then 0 else s.mem a) } := by
  simp [LEDs_SetAllOff, store, hp, LEDS_ALL_OFF, toUint16]

theorem LEDs_SetAllOn_eq (s : LedsState) (hp : s._leds_port ≠ NULL) :
    LEDs_SetAllOn s = some { s with mem := fun a =>
      (if a = s._leds_port then 0xFFFF else s.mem a) } := by
  simp [LEDs_SetAllOn, store, hp, LEDS_ALL_ON, toUint16]

/-! ## Sequences of calls -/

theorem setReg_self (s : LedsState) : setReg s (s.mem s._leds_port) = s := by
  cases s with
  | mk p m =>
    simp only [setReg]
    congr
    funext a
    by_cases h : a = p
    · simp [h]
    · simp [h]

theorem setReg_port (s : LedsState) (v : Nat) : (setReg s v)._leds_port = s._leds_port := rfl

theorem setReg_mem_port (s : LedsState) (v : Nat) : (setReg s v).mem s._leds_port = v := by
  simp [setReg]

theorem setReg_mem_other (s : LedsState) (v : Nat) {a : Nat} (h : a ≠ s._leds_port) :
    (setReg s v).mem a = s.mem a := by
  simp [setReg, h]

theorem setReg_setReg (s : LedsState) (v w : Nat) : setReg (setReg s v) w = setReg s w := by
  simp only [setReg]
  congr
  funext a
  by_cases h : a = s._leds_port
  · simp [h]
  · simp [h]

theorem runCall_eq (s : LedsState) (c : LedCall) (hp : s._leds_port ≠ NULL)
    (hq : c.queriesValid) :
    runCall s c =
      some (regResult (s.mem s._leds_port) c, setReg s (regStep (s.mem s._leds_port) c)) := by
  cases c with
  | setOn led =>
    by_cases hv : 1 ≤ led ∧ led ≤ 16
    · simp only [runCall, LEDs_SetOn_valid_eq s hp hv.1 hv.2, regResult, regStep,
        (isValidIndex_iff led).2 hv, if_true, Option.map_some', setReg]
    · simp [runCall, regResult, regStep, isValidIndex_eq_false led hv, LEDs_SetOn, setReg_self]
  | setOff led =>
    by_cases hv : 1 ≤ led ∧ led ≤ 16
    · simp only [runCall, LEDs_SetOff_valid_eq s hp hv.1 hv.2, regResult, regStep,
        (isValidIndex_iff led).2 hv, if_true, Option.map_some', setReg]
    · simp [runCall, regResult, regStep, isValidIndex_eq_false led hv, LEDs_SetOff, setReg_self]
  | setAllOn =>
    simp only [runCall, LEDs_SetAllOn_eq s hp, regResult, regStep, Option.map_some', setReg]
  | setAllOff =>
    simp only [runCall, LEDs_SetAllOff_eq s hp, regResult, regStep, Option.map_some', setReg]
  | isOn led =>
    have hv : 1 ≤ led ∧ led ≤ 16 := hq
    simp only [runCall, LEDs_IsOn_valid_eq s hp hv.1 hv.2, regResult, regStep,
      Option.map_some', setReg_self]

theorem runCalls_eq (calls : List LedCall) :
    ∀ s : LedsState, s._leds_port ≠ NULL → (∀ c ∈ calls, c.queriesValid) →
      runCalls s calls =
        some (regResults (s.mem s._leds_port) calls,
          setReg s (regAfter (s.mem s._leds_port) calls)) := by
  induction calls with
  | nil =>
    intro s _ _
    simp [runCalls, regResults, regAfter, setReg_self]
  | cons c cs ih =>
    intro s hp hq
    have hc : c.queriesValid := hq c (List.mem_cons_self c cs)
    have hcs : ∀ d ∈ cs, d.queriesValid := fun d hd => hq d (List.mem_cons_of_mem c hd)
    have hstep := runCall_eq s c hp hc
    have hrest := ih (setReg s (regStep (s.mem s._leds_port) c)) hp hcs
    rw [setReg_port, setReg_mem_port, setReg_setReg] at hrest
    simp [runCalls, hstep, hrest, regResults, regAfter]

theorem queriesValid_of_isValidSet {c : LedCall} (h : c.isValidSet) : c.queriesValid := by
  cases c <;> trivial

theorem regResults_of_isValidSet (calls : List LedCall) :
    ∀ r : Nat, (∀ c ∈ calls, c.isValidSet) →
      regResults r calls = List.replicate calls.length (some true) := by
  induction calls with
  | nil => intro r _; rfl
  | cons c cs ih =>
    intro r hv
    have hc : c.isValidSet := hv c (List.mem_cons_self c cs)
    have hcs : ∀ d ∈ cs, d.isValidSet := fun d hd => hv d (List.mem_cons_of_mem c hd)
    have hres : regResult r c = some true := by
      cases c with
      | setOn led => simp [regResult, (isValidIndex_iff led).2 hc]
      | setOff led => simp [regResult, (isValidIndex_iff led).2 hc]
      | setAllOn => exact hc.elim
      | setAllOff => exact hc.elim
      | isOn led => exact hc.elim
    simp [regResults, hres, ih _ hcs, List.replicate_succ]

theorem lastCallNaming_cons (c : LedCall) (cs : List LedCall) (i : Int) :
    lastCallNaming (c :: cs) i =
      match lastCallNaming cs i with
      | some d => some d
      | none => if c.led? = some i then some c else none := by
  unfold lastCallNaming
  by_cases h : c.led? = some i
  · rw [List.filter_cons_of_pos (by simpa using h), List.getLast?_cons]
    cases (List.filter (fun c => decide (c.led? = some i)) cs).getLast? <;> simp [h]
  · rw [List.filter_cons_of_neg (by simpa using h)]
    cases (List.filter (fun c => decide (c.led? = some i)) cs).getLast? <;> simp [h]

theorem testBit_regStep (r : Nat) (c : LedCall) (hc : c.isValidSet) (k : Nat) (hk : k < 16) :
    (regStep r c).testBit k =
      if c.led? = some ((k : Int) + 1) then c.isSetOn else r.testBit k := by
  cases c with
  | setOn led =>
    have hv : 1 ≤ led ∧ led ≤ 16 := hc
    simp only [regStep, (isValidIndex_iff led).2 hv, if_true, LedCall.led?, Option.some.injEq,
      LedCall.isSetOn, testBit_toUint16, Nat.testBit_or, Nat.testBit_two_pow, hk, decide_True, Bool.true_and]
    by_cases hl : led = (k : Int) + 1
    · have : (led - 1).toNat = k := by omega
      simp [hl]
    · have : ¬ (led - 1).toNat = k := by omega
      simp [hl, this, -Int.pred_toNat]
  | setOff led =>
    have hv : 1 ≤ led ∧ led ≤ 16 := hc
    simp only [regStep, (isValidIndex_iff led).2 hv, if_true, LedCall.led?, Option.some.injEq,
      LedCall.isSetOn, testBit_clear, hk, decide_True, Bool.true_and]
    by_cases hl : led = (k : Int) + 1
    · have : (led - 1).toNat = k := by omega
      simp [hl]
    · have : ¬ (led - 1).toNat = k := by omega
      simp [hl, this, -Int.pred_toNat]
  | setAllOn => exact hc.elim
  | setAllOff => exact hc.elim
  | isOn led => exact hc.elim

theorem testBit_regAfter (calls : List LedCall) :
    ∀ r : Nat, (∀ c ∈ calls, c.isValidSet) → ∀ k : Nat, k < 16 →
      (regAfter r calls).testBit k =
        match lastCallNaming calls ((k : Int) + 1) with
        | some c => c.isSetOn
        | none => r.testBit k := by
  induction calls with
  | nil => intro r _ k _; rfl
  | cons c cs ih =>
    intro r hv k hk
    have hc : c.isValidSet := hv c (List.mem_cons_self c cs)
    have hcs : ∀ d ∈ cs, d.isValidSet := fun d hd => hv d (List.mem_cons_of_mem c hd)
    have hrest := ih (regStep r c) hcs k hk
    rw [lastCallNaming_cons]
    simp only [regAfter]
    rw [hrest, testBit_regStep r c hc k hk]
    cases hl : lastCallNaming cs ((k : Int) + 1) with
    | some d => rfl
    | none =>
      by_cases hn : c.led? = some ((k : Int) + 1)
      · simp [hn]
      · simp [hn]

theorem LEDs_Create_true {s0 s1 : LedsState} {p : Nat}
    (h : LEDs_Create s0 p = some (true, s1)) :
    p ≠ NULL ∧ s1._leds_port = p ∧ s1.mem p = 0 ∧ ∀ a, a ≠ p → s1.mem a = s0.mem a := by
  by_cases hp : NULL = p
  · simp [LEDs_Create, hp] at h
  · have hp2 : p ≠ NULL := fun e => hp e.symm
    simp only [LEDs_Create, hp, if_false, LEDs_SetAllOff, store, hp2, LEDS_ALL_OFF, toUint16,
      Option.bind_eq_bind, Option.some_bind, Option.some.injEq, Prod.mk.injEq, true_and] at h
    subst h
    refine ⟨hp2, rfl, by simp, ?_⟩
    intro a ha
    simp [ha]

/-! ## Contract of the LED port driver -/

/-- C1: on a bound port whose register holds `r`, `LEDs_SetOn(i)` with `1 ≤ i ≤ 16`
returns true and leaves the register equal to `r OR (1 << (i-1))`; the pointer and
every other cell are untouched; afterwards `LEDs_IsOn(i)` is true and `LEDs_IsOn(j)`
for every other valid `j` answers as it did before the call. -/
theorem LEDs_SetOn_sets_bit (s : LedsState) (r : Nat) (i : Int)
    (hp : s._leds_port ≠ NULL) (hr : s.mem s._leds_port = r) (hr16 : r < 2 ^ 16)
    (h1 : 1 ≤ i) (h2 : i ≤ 16) :
    ∃ s', LEDs_SetOn s i = some (true, s') ∧
      s'._leds_port = s._leds_port ∧
      s'.mem s._leds_port = r ||| (1 <<< (i - 1).toNat) ∧
      (∀ a, a ≠ s._leds_port → s'.mem a = s.mem a) ∧
      LEDs_IsOn s' i = some (true, s') ∧
      ∀ j : Int, 1 ≤ j → j ≤ 16 → j ≠ i →
        ∃ b, LEDs_IsOn s j = some (b, s) ∧ LEDs_IsOn s' j = some (b, s') := by
  have hk := toNat_pred_lt h1 h2
  refine ⟨_, LEDs_SetOn_valid_eq s hp h1 h2, rfl, ?_, ?_, ?_, ?_⟩
  · simp only [if_true, hr, Nat.one_shiftLeft]
    exact toUint16_or_mask hr16 hk
  · intro a ha
    simp [ha]
  · refine (LEDs_IsOn_valid_eq _ ?_ h1 h2).trans ?_
    · exact hp
    · simp [testBit_toUint16, hk, Nat.testBit_two_pow_self, -Int.pred_toNat]
  · intro j hj1 hj2 hji
    refine ⟨(s.mem s._leds_port).testBit (j - 1).toNat, LEDs_IsOn_valid_eq s hp hj1 hj2, ?_⟩
    have hne : ¬ (i - 1).toNat = (j - 1).toNat := fun h => hji (toNat_pred_inj hj1 h1 h.symm)
    refine (LEDs_IsOn_valid_eq _ ?_ hj1 hj2).trans ?_
    · exact hp
    · simp [testBit_toUint16, toNat_pred_lt hj1 hj2, Nat.testBit_two_pow, hne, -Int.pred_toNat]

/-- Witness of C1: register `0x0100`, `LEDs_SetOn(3)` gives `0x0104`. -/
theorem LEDs_SetOn_sets_bit_witness :
    (mkState 1 0x0100)._leds_port ≠ NULL ∧ (0x0100 : Nat) < 2 ^ 16 ∧
      ∃ s', LEDs_SetOn (mkState 1 0x0100) 3 = some (true, s') ∧ s'.mem 1 = 0x0104 ∧
        LEDs_IsOn s' 3 = some (true, s') :=
  ⟨by decide, by decide,
    match LEDs_SetOn_sets_bit (mkState 1 0x0100) 0x0100 3 (by decide) rfl (by decide)
      (by decide) (by decide) with
    | ⟨s', h, _, hm, _, hon, _⟩ => ⟨s', h, hm, hon⟩⟩

/-- C2: for every index outside `1..16`, `LEDs_SetOn` and `LEDs_SetOff` return false
and leave the whole state, the register included, as it was. -/
theorem LEDs_SetOn_SetOff_out_of_range (s : LedsState) (i : Int) (h : i < 1 ∨ 16 < i) :
    LEDs_SetOn s i = some (false, s) ∧ LEDs_SetOff s i = some (false, s) := by
  have hv : isValidIndex i = false := isValidIndex_eq_false i (by omega)
  constructor
  · simp [LEDs_SetOn, hv]
  · simp [LEDs_SetOff, hv]

/-- Witness of C2: index 17 on a register holding `0x00FF`. -/
theorem LEDs_SetOn_SetOff_out_of_range_witness :
    LEDs_SetOn (mkState 1 0x00FF) 17 = some (false, mkState 1 0x00FF) ∧
      LEDs_SetOff (mkState 1 0x00FF) 17 = some (false, mkState 1 0x00FF) :=
  LEDs_SetOn_SetOff_out_of_range (mkState 1 0x00FF) 17 (Or.inr (by decide))

/-- C3: on a bound port whose register holds `r`, `LEDs_SetOff(i)` with `1 ≤ i ≤ 16`
returns true and leaves the register equal to the 16-bit truncation of
`r & ~mask` computed on promoted `int`s, which is `r AND (0xFFFF XOR (1 << (i-1)))`;
afterwards `LEDs_IsOn(i)` is false and every other bit of the register is unchanged. -/
theorem LEDs_SetOff_clears_bit (s : LedsState) (r : Nat) (i : Int)
    (hp : s._leds_port ≠ NULL) (hr : s.mem s._leds_port = r) (hr16 : r < 2 ^ 16)
    (h1 : 1 ≤ i) (h2 : i ≤ 16) :
    ∃ s', LEDs_SetOff s i = some (true, s') ∧
      s'._leds_port = s._leds_port ∧
      s'.mem s._leds_port = toUint16 (r &&& bitNot (1 <<< (i - 1).toNat)) ∧
      s'.mem s._leds_port = r &&& (0xFFFF ^^^ (1 <<< (i - 1).toNat)) ∧
      (∀ a, a ≠ s._leds_port → s'.mem a = s.mem a) ∧
      LEDs_IsOn s' i = some (false, s') ∧
      ∀ b : Nat, b ≠ (i - 1).toNat →
        (s'.mem s._leds_port).testBit b = r.testBit b := by
  have hk := toNat_pred_lt h1 h2
  refine ⟨_, LEDs_SetOff_valid_eq s hp h1 h2, rfl, ?_, ?_, ?_, ?_, ?_⟩
  · simp only [if_true, hr, Nat.one_shiftLeft]
  · simp only [if_true, hr, Nat.one_shiftLeft]
    exact toUint16_and_bitNot hr16 _
  · intro a ha
    simp [ha]
  · refine (LEDs_IsOn_valid_eq _ ?_ h1 h2).trans ?_
    · exact hp
    · simp [testBit_clear, -Int.pred_toNat]
  · intro b hb
    have hne : ¬ (i - 1).toNat = b := fun h => hb h.symm
    simp only [if_true, hr, testBit_clear]
    by_cases hb16 : b < 16
    · simp [hb16, hne, -Int.pred_toNat]
    · simp [hb16, testBit_of_lt_uint16 hr16 (Nat.le_of_not_lt hb16)]

/-- Witness of C3: register `0xFFFF`, `LEDs_SetOff(16)` gives `0x7FFF`. -/
theorem LEDs_SetOff_clears_bit_witness :
    (mkState 1 0xFFFF)._leds_port ≠ NULL ∧ (0xFFFF : Nat) < 2 ^ 16 ∧
      ∃ s', LEDs_SetOff (mkState 1 0xFFFF) 16 = some (true, s') ∧ s'.mem 1 = 0x7FFF ∧
        LEDs_IsOn s' 16 = some (false, s') :=
  ⟨by decide, by decide,
    match LEDs_SetOff_clears_bit (mkState 1 0xFFFF) 0xFFFF 16 (by decide) rfl (by decide)
      (by decide) (by decide) with
    | ⟨s', h, _, _, hm, _, hoff, _⟩ => ⟨s', h, hm, hoff⟩⟩

/-- C4: `LEDs_Create` with a non-null register reference returns true, binds the
port to that register and leaves the register at `0x0000`, whatever it held; no
other cell is written. -/
theorem LEDs_Create_binds_and_clears (s : LedsState) (p : Nat) (hp : p ≠ NULL) :
    ∃ s', LEDs_Create s p = some (true, s') ∧
      s'._leds_port = p ∧ s'.mem p = 0x0000 ∧ ∀ a, a ≠ p → s'.mem a = s.mem a := by
  have hp2 : ¬ NULL = p := fun h => hp h.symm
  refine ⟨{ _leds_port := p, mem := fun a => if a = p then 0 else s.mem a }, ?_, rfl, ?_, ?_⟩
  · simp [LEDs_Create, hp2, LEDs_SetAllOff, store, hp, LEDS_ALL_OFF, toUint16]
  · simp
  · intro a ha
    simp [ha]

/-- Witness of C4: an unbound port and a register at address 7 holding `0xFFFF`. -/
theorem LEDs_Create_binds_and_clears_witness :
    (7 : Nat) ≠ NULL ∧
      ∃ s', LEDs_Create { _leds_port := NULL, mem := fun _ => 0xFFFF } 7 = some (true, s') ∧
        s'._leds_port = 7 ∧ s'.mem 7 = 0x0000 :=
  ⟨by decide,
    match LEDs_Create_binds_and_clears { _leds_port := NULL, mem := fun _ => 0xFFFF } 7
      (by decide) with
    | ⟨s', h, hport, hm, _⟩ => ⟨s', h, hport, hm⟩⟩

/-- C5: `LEDs_Create(NULL)` returns false and leaves the whole state as it was: the
bound pointer and every register keep their value. -/
theorem LEDs_Create_null (s : LedsState) : LEDs_Create s NULL = some (false, s) := by
  simp [LEDs_Create]

/-- C6: on a bound port, `LEDs_SetAllOff()` leaves the register at `0x0000` and then
`LEDs_IsOn(i)` is false for every `i` in `1..16`; `LEDs_SetAllOn()` leaves it at
`0xFFFF` and then `LEDs_IsOn(i)` is true for every `i` in `1..16`. -/
theorem LEDs_SetAllOff_SetAllOn (s : LedsState) (hp : s._leds_port ≠ NULL) :
    (∃ s', LEDs_SetAllOff s = some s' ∧ s'.mem s._leds_port = 0x0000 ∧
      ∀ i : Int, 1 ≤ i → i ≤ 16 → LEDs_IsOn s' i = some (false, s')) ∧
    (∃ s', LEDs_SetAllOn s = some s' ∧ s'.mem s._leds_port = 0xFFFF ∧
      ∀ i : Int, 1 ≤ i → i ≤ 16 → LEDs_IsOn s' i = some (true, s')) := by
  constructor
  · refine ⟨_, LEDs_SetAllOff_eq s hp, by simp, ?_⟩
    intro i h1 h2
    refine (LEDs_IsOn_valid_eq _ ?_ h1 h2).trans ?_
    · exact hp
    · simp
  · refine ⟨_, LEDs_SetAllOn_eq s hp, by simp, ?_⟩
    intro i h1 h2
    have hk := toNat_pred_lt h1 h2
    refine (LEDs_IsOn_valid_eq _ ?_ h1 h2).trans ?_
    · exact hp
    · have hff : (0xFFFF : Nat) = 2 ^ 16 - 1 := by norm_num
      simp only [if_true, hff, Nat.testBit_two_pow_sub_one, hk, decide_True]

/-- Witness of C6: a port bound to address 1 whose register holds `0x1234`. -/
theorem LEDs_SetAllOff_SetAllOn_witness :
    (∃ s', LEDs_SetAllOff (mkState 1 0x1234) = some s' ∧ s'.mem 1 = 0x0000 ∧
      LEDs_IsOn s' 16 = some (false, s')) ∧
    (∃ s', LEDs_SetAllOn (mkState 1 0x1234) = some s' ∧ s'.mem 1 = 0xFFFF ∧
      LEDs_IsOn s' 16 = some (true, s')) :=
  match LEDs_SetAllOff_SetAllOn (mkState 1 0x1234) (by decide) with
  | ⟨⟨s1, h1, m1, q1⟩, ⟨s2, h2, m2, q2⟩⟩ =>
    ⟨⟨s1, h1, m1, q1 16 (by decide) (by decide)⟩, ⟨s2, h2, m2, q2 16 (by decide) (by decide)⟩⟩

/-- C7: on a bound port whose register holds `r`, `LEDs_IsOn(i)` with `1 ≤ i ≤ 16`
returns true exactly when bit `i-1` of `r` is set, and leaves the state unchanged. -/
theorem LEDs_IsOn_reads_bit (s : LedsState) (r : Nat) (i : Int)
    (hp : s._leds_port ≠ NULL) (hr : s.mem s._leds_port = r) (h1 : 1 ≤ i) (h2 : i ≤ 16) :
    ∃ b, LEDs_IsOn s i = some (b, s) ∧ (b = true ↔ r.testBit (i - 1).toNat = true) ∧
      (b = true ↔ r / 2 ^ (i - 1).toNat % 2 = 1) := by
  refine ⟨r.testBit (i - 1).toNat, ?_, Iff.rfl, ?_⟩
  · rw [← hr]
    exact LEDs_IsOn_valid_eq s hp h1 h2
  · rw [Nat.testBit_to_div_mod, decide_eq_true_eq]

/-- Witness of C7: register `0x0004`, index 3. -/
theorem LEDs_IsOn_reads_bit_witness :
    (mkState 1 0x0004)._leds_port ≠ NULL ∧
      LEDs_IsOn (mkState 1 0x0004) 3 = some (true, mkState 1 0x0004) :=
  ⟨by decide,
    match LEDs_IsOn_reads_bit (mkState 1 0x0004) 0x0004 3 (by decide) rfl (by decide)
      (by decide) with
    | ⟨b, h, hb, _⟩ => by
      have hbt : b = true := hb.2 (by decide)
      rw [h, hbt]⟩

/-- C8: on a freshly created port, every call of a sequence of `LEDs_SetOn` /
`LEDs_SetOff` calls with indices in `1..16` returns true, and afterwards bit `i-1` of
the register is set exactly when the last call naming `i` is a `LEDs_SetOn`.
Scenarios: `SetOn(3)` gives `0x0004`; `SetOn(7), SetOn(5), SetOff(2), SetOff(7)`
gives `0x0010`; `SetOn(1), SetOn(16)` gives `0x8001`. -/
theorem setOn_setOff_sequence (s0 s1 : LedsState) (p : Nat) (calls : List LedCall)
    (hc : LEDs_Create s0 p = some (true, s1)) (hv : ∀ c ∈ calls, c.isValidSet) :
    (∃ s', runCalls s1 calls = some (List.replicate calls.length (some true), s') ∧
      ∀ i : Int, 1 ≤ i → i ≤ 16 →
        (s'.mem p).testBit (i - 1).toNat = lastCallIsSetOn calls i) ∧
    (∃ s', runCalls s1 [.setOn 3] = some ([some true], s') ∧ s'.mem p = 0x0004) ∧
    (∃ s', runCalls s1 [.setOn 7, .setOn 5, .setOff 2, .setOff 7] =
        some ([some true, some true, some true, some true], s') ∧ s'.mem p = 0x0010) ∧
    (∃ s', runCalls s1 [.setOn 1, .setOn 16] = some ([some true, some true], s') ∧
      s'.mem p = 0x8001) := by
  obtain ⟨hp, hport, hm0, _⟩ := LEDs_Create_true hc
  subst hport
  have hrun : ∀ cs : List LedCall, (∀ c ∈ cs, c.queriesValid) →
      runCalls s1 cs = some (regResults 0 cs, setReg s1 (regAfter 0 cs)) := by
    intro cs hq
    have h := runCalls_eq cs s1 hp hq
    rwa [hm0] at h
  refine ⟨⟨setReg s1 (regAfter 0 calls), ?_, ?_⟩, ⟨setReg s1 (regAfter 0 [.setOn 3]), ?_, ?_⟩,
    ⟨setReg s1 (regAfter 0 [.setOn 7, .setOn 5, .setOff 2, .setOff 7]), ?_, ?_⟩,
    ⟨setReg s1 (regAfter 0 [.setOn 1, .setOn 16]), ?_, ?_⟩⟩
  · rw [hrun calls (fun c hcm => queriesValid_of_isValidSet (hv c hcm)),
      regResults_of_isValidSet calls 0 hv]
  · intro i h1 h2
    have hk := toNat_pred_lt h1 h2
    have hi : (((i - 1).toNat : Nat) : Int) + 1 = i := by omega
    rw [setReg_mem_port, testBit_regAfter calls 0 hv _ hk, hi]
    unfold lastCallIsSetOn
    cases lastCallNaming calls i with
    | some c => rfl
    | none => exact Nat.zero_testBit _
  · rw [hrun _ (by simp [LedCall.queriesValid])]
    rfl
  · rw [setReg_mem_port]
    decide
  · rw [hrun _ (by simp [LedCall.queriesValid])]
    rfl
  · rw [setReg_mem_port]
    decide
  · rw [hrun _ (by simp [LedCall.queriesValid])]
    rfl
  · rw [setReg_mem_port]
    decide

/-- Witness of C8: a register at address 1 that held `0xFFFF` before `LEDs_Create`;
after `SetOn(7), SetOn(5), SetOff(2), SetOff(7)` it holds `0x0010`, LED 5 being the
only index whose last call is a `LEDs_SetOn`. -/
theorem setOn_setOff_sequence_witness :
    LEDs_Create { _leds_port := NULL, mem := fun _ => 0xFFFF } 1 =
        some (true, { _leds_port := 1, mem := fun a => if a = 1 then 0 else 0xFFFF }) ∧
      lastCallIsSetOn [.setOn 7, .setOn 5, .setOff 2, .setOff 7] 5 = true ∧
      lastCallIsSetOn [.setOn 7, .setOn 5, .setOff 2, .setOff 7] 7 = false ∧
      ∃ s', runCalls { _leds_port := 1, mem := fun a => if a = 1 then 0 else 0xFFFF }
          [.setOn 7, .setOn 5, .setOff 2, .setOff 7] =
            some ([some true, some true, some true, some true], s') ∧
        (s'.mem 1).testBit 4 = true ∧ (s'.mem 1).testBit 6 = false :=
  ⟨rfl, by decide, by decide,
    match (setOn_setOff_sequence { _leds_port := NULL, mem := fun _ => 0xFFFF }
      { _leds_port := 1, mem := fun a => if a = 1 then 0 else 0xFFFF } 1
      [.setOn 7, .setOn 5, .setOff 2, .setOff 7] rfl
      (by simp [LedCall.isValidSet])).1 with
    | ⟨s', h, hb⟩ =>
      ⟨s', h, (hb 5 (by decide) (by decide)).trans (by decide),
        (hb 7 (by decide) (by decide)).trans (by decide)⟩⟩

/-- C9: after `LEDs_Create(r1)` and then a successful `LEDs_Create(r2)` with `r2`
another register, every later sequence of `SetOn` / `SetOff` / `SetAllOn` /
`SetAllOff` / `IsOn` calls keeps the port bound to `r2`, writes no cell but `r2`
(so `r1` keeps the value it had when `r2` was bound), `LEDs_IsOn` reports the bits
of `r2`, and the returned values and the final content of `r2` depend on no cell
but `r2`. -/
theorem LEDs_Create_rebinds (s0 s1 s2 : LedsState) (r1 r2 : Nat) (calls : List LedCall)
    (hc1 : LEDs_Create s0 r1 = some (true, s1)) (hc2 : LEDs_Create s1 r2 = some (true, s2))
    (hne : r1 ≠ r2) (hq : ∀ c ∈ calls, c.queriesValid) :
    s1._leds_port = r1 ∧ s2._leds_port = r2 ∧ s2.mem r1 = s1.mem r1 ∧
    ∃ res s', runCalls s2 calls = some (res, s') ∧
      s'._leds_port = r2 ∧
      s'.mem r1 = s2.mem r1 ∧
      (∀ a, a ≠ r2 → s'.mem a = s2.mem a) ∧
      (∀ i : Int, 1 ≤ i → i ≤ 16 →
        LEDs_IsOn s' i = some ((s'.mem r2).testBit (i - 1).toNat, s')) ∧
      ∀ t : LedsState, t._leds_port = r2 → t.mem r2 = s2.mem r2 →
        ∃ t', runCalls t calls = some (res, t') ∧ t'.mem r2 = s'.mem r2 ∧
          ∀ a, a ≠ r2 → t'.mem a = t.mem a := by
  obtain ⟨_, hport1, _, _⟩ := LEDs_Create_true hc1
  obtain ⟨hp2, hport2, _, hother2⟩ := LEDs_Create_true hc2
  subst hport2
  refine ⟨hport1, rfl, hother2 r1 hne, regResults (s2.mem s2._leds_port) calls,
    setReg s2 (regAfter (s2.mem s2._leds_port) calls), runCalls_eq calls s2 hp2 hq, rfl,
    setReg_mem_other _ _ hne, fun a ha => setReg_mem_other _ _ ha, ?_, ?_⟩
  · intro i h1 h2
    refine LEDs_IsOn_valid_eq _ ?_ h1 h2
    exact hp2
  · intro t ht hmt
    have hpt : t._leds_port ≠ NULL := by rw [ht]; exact hp2
    have hrun := runCalls_eq calls t hpt hq
    refine ⟨setReg t (regAfter (t.mem t._leds_port) calls), ?_, ?_, ?_⟩
    · rw [hrun, ht, hmt]
    · rw [← ht, setReg_mem_port, ht, hmt, ← ht, ht]
      exact (setReg_mem_port s2 _).symm
    · intro a ha
      exact setReg_mem_other _ _ (by rw [ht]; exact ha)

/-- Witness of C9: registers at addresses 1 and 2; after rebinding to 2, the calls
`SetAllOn(), SetOff(1), IsOn(1), IsOn(2)` leave register 1 at `0x0000`. -/
theorem LEDs_Create_rebinds_witness :
    ∃ res s', runCalls { _leds_port := 2, mem := fun a => if a = 2 then 0 else
          if a = 1 then 0 else 0xFFFF } [.setAllOn, .setOff 1, .isOn 1, .isOn 2] =
        some (res, s') ∧ s'._leds_port = 2 ∧ s'.mem 1 = 0 :=
  match (LEDs_Create_rebinds { _leds_port := NULL, mem := fun _ => 0xFFFF }
      { _leds_port := 1, mem := fun a => if a = 1 then 0 else 0xFFFF }
      { _leds_port := 2, mem := fun a => if a = 2 then 0 else if a = 1 then 0 else 0xFFFF }
      1 2 [.setAllOn, .setOff 1, .isOn 1, .isOn 2] rfl rfl (by decide)
      (by simp [LedCall.queriesValid])).2.2.2 with
  | ⟨res, s', h, hport, hm1, _⟩ => ⟨res, s', h, hport, hm1⟩

end Leds

namespace Gpio

/-- C10: when the allocator yields a non-null handle, `gpioCreate(port, bit)` returns
that handle with its `port` member equal to the given port, its `bit` member equal to
the given bit and its `output` member false, writing no other byte; when the
allocator yields `NULL`, `gpioCreate` returns `NULL` and writes nothing. -/
theorem gpioCreate_initialises (alloc : Memory → Nat × Memory) (m m0 : Memory)
    (self puerto bit : Nat) (h : alloc m = (self, m0)) :
    (self ≠ NULL →
      (gpioCreate alloc m puerto bit).1 = self ∧
      (gpioCreate alloc m puerto bit).2 (self + gpio_s.port) = puerto ∧
      (gpioCreate alloc m puerto bit).2 (self + gpio_s.bit) = bit ∧
      (gpioCreate alloc m puerto bit).2 (self + gpio_s.output) = 0 ∧
      ∀ a, a ≠ self + gpio_s.port → a ≠ self + gpio_s.bit → a ≠ self + gpio_s.output →
        (gpioCreate alloc m puerto bit).2 a = m0 a) ∧
    (self = NULL → gpioCreate alloc m puerto bit = (NULL, m0)) := by
  constructor
  · intro hs
    simp only [gpioCreate, h, hs, ne_eq, not_false_eq_true, if_true]
    refine ⟨trivial, ?_, ?_, ?_, ?_⟩
    · simp [storeByte, gpio_s.port, gpio_s.bit, gpio_s.output]
    · simp [storeByte, gpio_s.port, gpio_s.bit, gpio_s.output]
    · simp [storeByte]
    · intro a h1 h2 h3
      simp [storeByte, h1, h2, h3]
  · intro hs
    simp [gpioCreate, h, hs]

/-- Witness of C10: an allocator handing out address 8, port 2, bit 5; and an
allocator that fails. -/
theorem gpioCreate_initialises_witness :
    ((gpioCreate (allocAt 8) (fun _ => 0xAA) 2 5).1 = 8 ∧
      (gpioCreate (allocAt 8) (fun _ => 0xAA) 2 5).2 8 = 2 ∧
      (gpioCreate (allocAt 8) (fun _ => 0xAA) 2 5).2 9 = 5 ∧
      (gpioCreate (allocAt 8) (fun _ => 0xAA) 2 5).2 10 = 0 ∧
      (gpioCreate (allocAt 8) (fun _ => 0xAA) 2 5).2 11 = 0xAA) ∧
    (gpioCreate (allocAt NULL) (fun _ => 0xAA) 2 5).1 = NULL :=
  ⟨match (gpioCreate_initialises (allocAt 8) (fun _ => 0xAA) (fun _ => 0xAA) 8 2 5 rfl).1
      (by decide) with
    | ⟨h1, h2, h3, h4, h5⟩ => ⟨h1, h2, h3, h4, h5 11 (by decide) (by decide) (by decide)⟩,
    congrArg Prod.fst
      ((gpioCreate_initialises (allocAt NULL) (fun _ => 0xAA) (fun _ => 0xAA) NULL 2 5 rfl).2
        rfl)⟩

end Gpio

namespace Leds

/-! ## Masks, undoing, idempotence and commutation -/

theorem testBit_regStep_all (r : Nat) (c : LedCall) (hc : c.isValidSet) (b : Nat) :
    (regStep r c).testBit b =
      (decide (b < 16) && if c.led? = some ((b : Int) + 1) then c.isSetOn else r.testBit b) := by
  by_cases hb : b < 16
  · rw [testBit_regStep r c hc b hb]
    simp [hb]
  · cases c with
    | setOn led =>
      have hv : 1 ≤ led ∧ led ≤ 16 := hc
      simp [regStep, (isValidIndex_iff led).2 hv, testBit_toUint16, hb, -Int.pred_toNat]
    | setOff led =>
      have hv : 1 ≤ led ∧ led ≤ 16 := hc
      simp [regStep, (isValidIndex_iff led).2 hv, testBit_toUint16, hb, -Int.pred_toNat]
    | setAllOn => exact hc.elim
    | setAllOff => exact hc.elim
    | isOn led => exact hc.elim

theorem regStep_idem (r : Nat) (c : LedCall) (hc : c.isValidSet) :
    regStep (regStep r c) c = regStep r c := by
  apply Nat.eq_of_testBit_eq
  intro b
  rw [testBit_regStep_all _ c hc b, testBit_regStep_all r c hc b]
  by_cases hb : b < 16 <;> by_cases hn : c.led? = some ((b : Int) + 1) <;> simp [hb, hn]

theorem regStep_comm (r : Nat) (c d : LedCall) (hc : c.isValidSet) (hd : d.isValidSet)
    (hne : c.led? ≠ d.led?) :
    regStep (regStep r c) d = regStep (regStep r d) c := by
  apply Nat.eq_of_testBit_eq
  intro b
  rw [testBit_regStep_all _ d hd b, testBit_regStep_all r c hc b,
    testBit_regStep_all _ c hc b, testBit_regStep_all r d hd b]
  by_cases hb : b < 16
  · by_cases h1 : c.led? = some ((b : Int) + 1)
    · have h2 : ¬ d.led? = some ((b : Int) + 1) := fun h => hne (h1.trans h.symm)
      simp [hb, h1, h2]
    · by_cases h2 : d.led? = some ((b : Int) + 1)
      · simp [hb, h1, h2]
      · simp [hb, h1, h2]
  · simp [hb]

/-- C16: for `1 ≤ i ≤ 16` the shift amount `i-1` lies in `0..15` and `indexToMask(i)`
is `2^(i-1)`, a non-zero 16-bit value whose only set bit is bit `i-1`; distinct valid
indices give distinct masks; and `isValidIndex(j)` is true exactly when
`1 ≤ j ≤ 16`. -/
theorem indexToMask_isValidIndex_spec (i : Int) (h1 : 1 ≤ i) (h2 : i ≤ 16) :
    0 ≤ i - LEDS_LED_OFFSET ∧ i - LEDS_LED_OFFSET ≤ 15 ∧
    indexToMask i = some (2 ^ (i - 1).toNat) ∧
    2 ^ (i - 1).toNat < 2 ^ 16 ∧ 2 ^ (i - 1).toNat ≠ 0 ∧
    (∀ b : Nat, (2 ^ (i - 1).toNat).testBit b = true ↔ b = (i - 1).toNat) ∧
    (∀ j : Int, 1 ≤ j → j ≤ 16 → indexToMask j = indexToMask i → j = i) ∧
    ∀ j : Int, isValidIndex j = true ↔ 1 ≤ j ∧ j ≤ 16 := by
  have hk := toNat_pred_lt h1 h2
  refine ⟨by unfold LEDS_LED_OFFSET; omega, by unfold LEDS_LED_OFFSET; omega,
    indexToMask_of_valid h1 h2, two_pow_lt_of_lt hk, ?_, ?_, ?_, isValidIndex_iff⟩
  · exact Nat.pos_iff_ne_zero.1 (Nat.two_pow_pos _)
  · intro b
    rw [Nat.testBit_two_pow, decide_eq_true_eq]
    exact eq_comm
  · intro j hj1 hj2 hm
    rw [indexToMask_of_valid hj1 hj2, indexToMask_of_valid h1 h2, Option.some.injEq] at hm
    exact toNat_pred_inj hj1 h1 (Nat.pow_right_injective (le_refl 2) hm)

/-- Witness of C16: index 16 has mask `0x8000`. -/
theorem indexToMask_isValidIndex_spec_witness :
    indexToMask 16 = some 0x8000 ∧ isValidIndex 16 = true ∧ isValidIndex 17 = false :=
  ⟨(indexToMask_isValidIndex_spec 16 (by decide) (by decide)).2.2.1, by decide, by decide⟩

theorem LEDs_SetOn_eq_setReg (s : LedsState) {led : Int} (hp : s._leds_port ≠ NULL)
    (h1 : 1 ≤ led) (h2 : led ≤ 16) :
    LEDs_SetOn s led = some (true, setReg s (regStep (s.mem s._leds_port) (.setOn led))) := by
  rw [LEDs_SetOn_valid_eq s hp h1 h2]
  simp only [setReg, regStep, (isValidIndex_iff led).2 ⟨h1, h2⟩, if_true]

theorem LEDs_SetOff_eq_setReg (s : LedsState) {led : Int} (hp : s._leds_port ≠ NULL)
    (h1 : 1 ≤ led) (h2 : led ≤ 16) :
    LEDs_SetOff s led = some (true, setReg s (regStep (s.mem s._leds_port) (.setOff led))) := by
  rw [LEDs_SetOff_valid_eq s hp h1 h2]
  simp only [setReg, regStep, (isValidIndex_iff led).2 ⟨h1, h2⟩, if_true]

theorem regStep_setOff_setOn (r : Nat) {led : Int} (h1 : 1 ≤ led) (h2 : led ≤ 16) :
    regStep (regStep r (.setOn led)) (.setOff led) = regStep r (.setOff led) := by
  have hon : (LedCall.setOn led).isValidSet := ⟨h1, h2⟩
  have hoff : (LedCall.setOff led).isValidSet := ⟨h1, h2⟩
  apply Nat.eq_of_testBit_eq
  intro b
  rw [testBit_regStep_all _ _ hoff b, testBit_regStep_all r _ hon b,
    testBit_regStep_all r _ hoff b]
  by_cases hb : b < 16 <;> by_cases hn : led = (b : Int) + 1 <;>
    simp [hb, hn, LedCall.led?, LedCall.isSetOn]

theorem regStep_setOff_of_clear {r : Nat} (hr : r < 2 ^ 16) {led : Int} (h1 : 1 ≤ led)
    (h2 : led ≤ 16) (hbit : r.testBit (led - 1).toNat = false) :
    regStep r (.setOff led) = r := by
  have hoff : (LedCall.setOff led).isValidSet := ⟨h1, h2⟩
  apply Nat.eq_of_testBit_eq
  intro b
  rw [testBit_regStep_all r _ hoff b]
  by_cases hb : b < 16
  · by_cases hn : led = (b : Int) + 1
    · have hk : (led - 1).toNat = b := by omega
      rw [hk] at hbit
      simp [hb, hn, LedCall.led?, LedCall.isSetOn, hbit]
    · simp [hb, hn, LedCall.led?]
  · simp [hb, testBit_of_lt_uint16 hr (Nat.le_of_not_lt hb)]

/-- C17: on a bound port and for `1 ≤ i ≤ 16`, `LEDs_SetOn(i)` followed by
`LEDs_SetOff(i)` both return true and leave the state `LEDs_SetOff(i)` alone would
leave; when the register held a 16-bit value whose bit `i-1` was clear, that is the
state before the two calls. -/
theorem LEDs_SetOff_undoes_SetOn (s : LedsState) (i : Int) (hp : s._leds_port ≠ NULL)
    (h1 : 1 ≤ i) (h2 : i ≤ 16) :
    ∃ s1 s2, LEDs_SetOn s i = some (true, s1) ∧ LEDs_SetOff s1 i = some (true, s2) ∧
      LEDs_SetOff s i = some (true, s2) ∧
      (s.mem s._leds_port < 2 ^ 16 → (s.mem s._leds_port).testBit (i - 1).toNat = false →
        s2 = s ∧ s2.mem s._leds_port = s.mem s._leds_port) := by
  refine ⟨setReg s (regStep (s.mem s._leds_port) (.setOn i)),
    setReg s (regStep (s.mem s._leds_port) (.setOff i)),
    LEDs_SetOn_eq_setReg s hp h1 h2, ?_, LEDs_SetOff_eq_setReg s hp h1 h2, ?_⟩
  · refine (LEDs_SetOff_eq_setReg _ ?_ h1 h2).trans ?_
    · exact hp
    · rw [setReg_port, setReg_mem_port, setReg_setReg, regStep_setOff_setOn _ h1 h2]
  · intro hr hbit
    rw [regStep_setOff_of_clear hr h1 h2 hbit, setReg_self]
    exact ⟨rfl, rfl⟩

/-- Witness of C17: register `0x0100`, index 3: on then off gives `0x0100` again. -/
theorem LEDs_SetOff_undoes_SetOn_witness :
    (mkState 1 0x0100)._leds_port ≠ NULL ∧
      ∃ s1 s2, LEDs_SetOn (mkState 1 0x0100) 3 = some (true, s1) ∧
        LEDs_SetOff s1 3 = some (true, s2) ∧ s2.mem 1 = 0x0100 :=
  ⟨by decide,
    match LEDs_SetOff_undoes_SetOn (mkState 1 0x0100) 3 (by decide) (by decide) (by decide) with
    | ⟨s1, s2, hon, hoff, _, hback⟩ =>
      ⟨s1, s2, hon, hoff, (hback (by decide) (by decide)).2⟩⟩

/-- C18: on a bound port and for `17 ≤ i ≤ 31`, the index is not valid, the mask
`1 << (i-1)` converts to `0` in 16 bits, and `LEDs_IsOn(i)` returns true whatever the
register holds, leaving the state unchanged. -/
theorem LEDs_IsOn_above_range (s : LedsState) (i : Int) (hp : s._leds_port ≠ NULL)
    (h1 : 17 ≤ i) (h2 : i ≤ 31) :
    isValidIndex i = false ∧ indexToMask i = some 0 ∧ LEDs_IsOn s i = some (true, s) := by
  have hm : indexToMask i = some 0 := by
    interval_cases i <;> rfl
  refine ⟨isValidIndex_eq_false i (by omega), hm, ?_⟩
  unfold LEDs_IsOn
  rw [hm]
  simp [load, hp]

/-- Witness of C18: register `0x0000`, index 17. -/
theorem LEDs_IsOn_above_range_witness :
    (mkState 1 0x0000)._leds_port ≠ NULL ∧
      LEDs_IsOn (mkState 1 0x0000) 17 = some (true, mkState 1 0x0000) :=
  ⟨by decide, (LEDs_IsOn_above_range (mkState 1 0x0000) 17 (by decide) (by decide)
    (by decide)).2.2⟩

/-- C19: on a bound port and for valid `i` and `j`, each of `LEDs_SetOn(i)` and
`LEDs_SetOff(i)` run twice leaves the state it leaves when run once, and when
`i ≠ j` a call of `SetOn(i)` / `SetOff(i)` and a call of `SetOn(j)` / `SetOff(j)`
leave the same state in either order; every call returns true. -/
theorem setOn_setOff_idempotent_commute (s : LedsState) (i j : Int)
    (hp : s._leds_port ≠ NULL) (hi : 1 ≤ i ∧ i ≤ 16) (hj : 1 ≤ j ∧ j ≤ 16) :
    (∀ c : LedCall, c = .setOn i ∨ c = .setOff i →
      ∃ s', runCalls s [c] = some ([some true], s') ∧
        runCalls s [c, c] = some ([some true, some true], s')) ∧
    (i ≠ j → ∀ c d : LedCall, c = .setOn i ∨ c = .setOff i → d = .setOn j ∨ d = .setOff j →
      ∃ s', runCalls s [c, d] = some ([some true, some true], s') ∧
        runCalls s [d, c] = some ([some true, some true], s')) := by
  have hrun : ∀ cs : List LedCall, (∀ c ∈ cs, c.isValidSet) →
      runCalls s cs = some (List.replicate cs.length (some true),
        setReg s (regAfter (s.mem s._leds_port) cs)) := by
    intro cs hv
    rw [runCalls_eq cs s hp (fun c hcm => queriesValid_of_isValidSet (hv c hcm)),
      regResults_of_isValidSet cs _ hv]
  have hvi : ∀ c : LedCall, c = .setOn i ∨ c = .setOff i → c.isValidSet ∧ c.led? = some i := by
    intro c hc
    rcases hc with rfl | rfl
    · exact ⟨hi, rfl⟩
    · exact ⟨hi, rfl⟩
  have hvj : ∀ d : LedCall, d = .setOn j ∨ d = .setOff j → d.isValidSet ∧ d.led? = some j := by
    intro d hd
    rcases hd with rfl | rfl
    · exact ⟨hj, rfl⟩
    · exact ⟨hj, rfl⟩
  constructor
  · intro c hc
    have hcv := (hvi c hc).1
    refine ⟨setReg s (regAfter (s.mem s._leds_port) [c]), ?_, ?_⟩
    · rw [hrun [c] (by simpa using hcv)]
      rfl
    · rw [hrun [c, c] (by simpa using hcv)]
      simp only [regAfter, regStep_idem _ c hcv]
      rfl
  · intro hne c d hc hd
    obtain ⟨hcv, hcl⟩ := hvi c hc
    obtain ⟨hdv, hdl⟩ := hvj d hd
    have hled : c.led? ≠ d.led? := by
      rw [hcl, hdl]
      exact fun h => hne (Option.some.inj h)
    refine ⟨setReg s (regAfter (s.mem s._leds_port) [c, d]), ?_, ?_⟩
    · rw [hrun [c, d] (by simpa using ⟨hcv, hdv⟩)]
      rfl
    · rw [hrun [d, c] (by simpa using ⟨hdv, hcv⟩)]
      simp only [regAfter, regStep_comm _ c d hcv hdv hled]
      rfl

/-- Witness of C19: register `0x00F0`; `SetOn(3)` twice leaves the state one
`SetOn(3)` leaves, and `SetOn(3)`, `SetOff(5)` leave the same state in either order. -/
theorem setOn_setOff_idempotent_commute_witness :
    (∃ s', runCalls (mkState 1 0x00F0) [.setOn 3, .setOn 3] =
        some ([some true, some true], s') ∧
      runCalls (mkState 1 0x00F0) [.setOn 3] = some ([some true], s')) ∧
    (∃ s', runCalls (mkState 1 0x00F0) [.setOn 3, .setOff 5] =
        some ([some true, some true], s') ∧
      runCalls (mkState 1 0x00F0) [.setOff 5, .setOn 3] =
        some ([some true, some true], s')) :=
  match setOn_setOff_idempotent_commute (mkState 1 0x00F0) 3 5 (by decide)
    ⟨by decide, by decide⟩ ⟨by decide, by decide⟩ with
  | ⟨hidem, hcomm⟩ =>
    ⟨match hidem (.setOn 3) (Or.inl rfl) with
      | ⟨s', hone, htwo⟩ => ⟨s', htwo, hone⟩,
      hcomm (by decide) (.setOn 3) (.setOff 5) (Or.inl rfl) (Or.inr rfl)⟩

end Leds

namespace Gpio

/-! ## The pin layer -/

theorem gpioCreate_fields (alloc : Memory → Nat × Memory) (m : Memory) (puerto bit : Nat)
    (hs : (alloc m).1 ≠ NULL) :
    (gpioCreate alloc m puerto bit).1 = (alloc m).1 ∧
      (gpioCreate alloc m puerto bit).2 ((alloc m).1 + gpio_s.port) = puerto ∧
      (gpioCreate alloc m puerto bit).2 ((alloc m).1 + gpio_s.bit) = bit := by
  simp only [gpioCreate, hs, ne_eq, not_false_eq_true, if_true]
  refine ⟨trivial, ?_, ?_⟩
  · simp [storeByte, gpio_s.port, gpio_s.bit, gpio_s.output]
  · simp [storeByte, gpio_s.port, gpio_s.bit, gpio_s.output]

theorem runPinCall_eq {Hw : Type} (hal : Hal Hw) (s : GpioState Hw) (self : Nat)
    (hs : self ≠ NULL) (c : PinCall) :
    runPinCall hal s self c =
      some ((halCall hal (s.mem (self + gpio_s.port)) (s.mem (self + gpio_s.bit)) s.hw c).1,
        { mem := s.mem,
          hw := (halCall hal (s.mem (self + gpio_s.port)) (s.mem (self + gpio_s.bit))
            s.hw c).2 }) := by
  cases c with
  | setOutput output => simp [runPinCall, gpioSetOutput, hs, halCall]
  | setState state => simp [runPinCall, gpioSetState, hs, halCall]
  | getState => simp [runPinCall, gpioGetState, hs, halCall]

theorem runPinCalls_eq {Hw : Type} (hal : Hal Hw) (self : Nat) (hs : self ≠ NULL)
    (calls : List PinCall) :
    ∀ s : GpioState Hw, runPinCalls hal s self calls =
      some ((halCalls hal (s.mem (self + gpio_s.port)) (s.mem (self + gpio_s.bit))
          s.hw calls).1,
        { mem := s.mem,
          hw := (halCalls hal (s.mem (self + gpio_s.port)) (s.mem (self + gpio_s.bit))
            s.hw calls).2 }) := by
  induction calls with
  | nil => intro s; rfl
  | cons c cs ih =>
    intro s
    simp [runPinCalls, runPinCall_eq hal s self hs c, ih, halCalls]

theorem recordingHal_halCalls (read : Nat → Nat → Bool) (port bit : Nat)
    (calls : List PinCall) :
    ∀ log : List HalRequest,
      (halCalls (recordingHal read) port bit log calls).2 =
        log ++ calls.map (requestOf port bit) := by
  induction calls with
  | nil => intro log; simp [halCalls]
  | cons c cs ih =>
    intro log
    cases c <;> simp only [halCalls, halCall] <;> rw [ih] <;> simp [recordingHal, requestOf]

theorem requestOf_port_bit (port bit : Nat) (c : PinCall) :
    (requestOf port bit c).port = port ∧ (requestOf port bit c).bit = bit := by
  cases c <;> exact ⟨rfl, rfl⟩

theorem allocateInstance_first_free (instances : Nat) (m : Memory)
    (h : m (instances + gpio_s.used) = 0) :
    allocateInstance instances m =
      (instances + gpio_s.used, storeByte m (instances + gpio_s.used + gpio_s.used) 1) := by
  simp [allocateInstance, GPIO_MAX_INSTANCES, allocateInstance.loop, h]

theorem gpioCreate_pool_port_zero (instances : Nat) (m : Memory) (bit : Nat)
    (h : m (instances + gpio_s.used) = 0) :
    (gpioCreate (allocateInstance instances) m 0 bit).1 = instances + gpio_s.used ∧
      (gpioCreate (allocateInstance instances) m 0 bit).2 (instances + gpio_s.used) = 0 ∧
      (gpioCreate (allocateInstance instances) m 0 bit).2
        (instances + gpio_s.used + gpio_s.bit) = bit := by
  have hne : instances + gpio_s.used ≠ NULL := by
    simp [gpio_s.used, NULL]
  simp only [gpioCreate, allocateInstance_first_free instances m h, hne, ne_eq,
    not_false_eq_true, if_true]
  refine ⟨trivial, ?_, ?_⟩
  · simp [storeByte, gpio_s.port, gpio_s.bit, gpio_s.output]
  · simp [storeByte, gpio_s.port, gpio_s.bit, gpio_s.output]

theorem gpioCreateMany_pool_port_zero (instances : Nat) (bits : List Nat) :
    ∀ m : Memory, m (instances + gpio_s.used) = 0 →
      (gpioCreateMany (allocateInstance instances) m (bits.map fun b => (0, b))).1 =
        List.replicate bits.length (instances + gpio_s.used) := by
  induction bits with
  | nil => intro m _; rfl
  | cons b bs ih =>
    intro m h
    obtain ⟨h1, h2, _⟩ := gpioCreate_pool_port_zero instances m b h
    simp only [List.map_cons, gpioCreateMany, h1, ih _ h2, List.length_cons,
      List.replicate_succ]

/-- C11, what the code does: in the fixed-pool configuration, from the
zero-initialised pool, every one of any number of `gpioCreate(0, bit)` calls returns
the same non-null handle, the address of `instances[0].used`; so do eleven calls of
`gpioCreate(0, 0)`, the eleventh of which the pool of ten does not refuse. -/
theorem gpioCreate_pool_not_exhausted (instances : Nat) (bits : List Nat) :
    (gpioCreateMany (allocateInstance instances) (fun _ => 0) (bits.map fun b => (0, b))).1 =
        List.replicate bits.length (instances + gpio_s.used) ∧
      instances + gpio_s.used ≠ NULL ∧
      (gpioCreateMany (allocateInstance 100) (fun _ => 0) (List.replicate 11 (0, 0))).1 =
        List.replicate 11 103 := by
  refine ⟨gpioCreateMany_pool_port_zero instances bits _ rfl, by simp [gpio_s.used, NULL], ?_⟩
  exact gpioCreateMany_pool_port_zero 100 (List.replicate 11 0) _ rfl

/-- C12, what the code does: `gpioSetOutput` and `gpioSetState` put the same request
to the abstraction layer for `true` and for `false`, whatever the layer does; a layer
that records its requests sees the pin's port and bit and no value. -/
theorem gpioSetOutput_gpioSetState_drop_value {Hw : Type} (hal : Hal Hw) (s : GpioState Hw)
    (self : Nat) (read : Nat → Nat → Bool) (m : Memory) :
    gpioSetOutput hal s self true = gpioSetOutput hal s self false ∧
      gpioSetState hal s self true = gpioSetState hal s self false ∧
      (∀ v : Bool, (gpioSetOutput (recordingHal read) { mem := m, hw := [] } 8 v).map
        (fun t => t.hw) = some [.setOutput (m 8) (m 9)]) ∧
      ∀ v : Bool, (gpioSetState (recordingHal read) { mem := m, hw := [] } 8 v).map
        (fun t => t.hw) = some [.setState (m 8) (m 9)] :=
  ⟨rfl, rfl, fun _ => rfl, fun _ => rfl⟩

/-- C13: for a handle `gpioCreate(p, b)` returned, any sequence of `gpioSetOutput`,
`gpioSetState` and `gpioGetState` calls on it runs to its end, leaves the memory of
the pin objects as `gpioCreate` left it, with the handle's `port` and `bit` members
equal to `p` and `b`, and acts on the hardware as the primitives addressed to
`(p, b)` do; a layer that records its requests receives one request per call, each
addressed to `(p, b)`. -/
theorem pin_port_bit_fixed {Hw : Type} (hal : Hal Hw) (alloc : Memory → Nat × Memory)
    (m : Memory) (p b : Nat) (hw : Hw) (calls : List PinCall)
    (hs : (gpioCreate alloc m p b).1 ≠ NULL) :
    (∃ t, runPinCalls hal { mem := (gpioCreate alloc m p b).2, hw := hw }
          (gpioCreate alloc m p b).1 calls = some ((halCalls hal p b hw calls).1, t) ∧
        t.hw = (halCalls hal p b hw calls).2 ∧
        t.mem = (gpioCreate alloc m p b).2 ∧
        t.mem ((gpioCreate alloc m p b).1 + gpio_s.port) = p ∧
        t.mem ((gpioCreate alloc m p b).1 + gpio_s.bit) = b) ∧
    ∀ (read : Nat → Nat → Bool) (log : List HalRequest),
      ∃ res t, runPinCalls (recordingHal read) { mem := (gpioCreate alloc m p b).2, hw := log }
          (gpioCreate alloc m p b).1 calls = some (res, t) ∧
        t.hw = log ++ calls.map (requestOf p b) ∧
        ∀ req ∈ calls.map (requestOf p b), req.port = p ∧ req.bit = b := by
  have hself : (gpioCreate alloc m p b).1 = (alloc m).1 := by
    unfold gpioCreate
    by_cases h : (alloc m).1 ≠ NULL <;> simp [h]
  have ha : (alloc m).1 ≠ NULL := by rw [← hself]; exact hs
  obtain ⟨_, hport, hbit⟩ := gpioCreate_fields alloc m p b ha
  rw [← hself] at hport hbit
  constructor
  · refine ⟨{ mem := (gpioCreate alloc m p b).2, hw := (halCalls hal p b hw calls).2 },
      ?_, rfl, rfl, hport, hbit⟩
    rw [runPinCalls_eq hal _ hs calls]
    simp only [hport, hbit]
  · intro read log
    refine ⟨((halCalls (recordingHal read) p b log calls).1),
      { mem := (gpioCreate alloc m p b).2,
        hw := (halCalls (recordingHal read) p b log calls).2 }, ?_, ?_, ?_⟩
    · rw [runPinCalls_eq (recordingHal read) _ hs calls]
      simp only [hport, hbit]
    · exact recordingHal_halCalls read p b calls log
    · intro req hreq
      obtain ⟨c, _, rfl⟩ := List.mem_map.1 hreq
      exact requestOf_port_bit p b c

/-- Witness of C13: the handle at address 8 for port 2, bit 5; the calls
`gpioSetOutput(true)`, `gpioSetState(false)`, `gpioGetState()` put three requests,
all addressed to `(2, 5)`. -/
theorem pin_port_bit_fixed_witness :
    (gpioCreate (allocAt 8) (fun _ => 0xAA) 2 5).1 ≠ NULL ∧
      ∃ res t, runPinCalls (recordingHal fun _ _ => true)
          { mem := (gpioCreate (allocAt 8) (fun _ => 0xAA) 2 5).2, hw := [] }
          (gpioCreate (allocAt 8) (fun _ => 0xAA) 2 5).1
          [.setOutput true, .setState false, .getState] = some (res, t) ∧
        t.hw = [.setOutput 2 5, .setState 2 5, .getState 2 5] :=
  ⟨by decide,
    match (pin_port_bit_fixed (recordingHal fun _ _ => true) (allocAt 8) (fun _ => 0xAA) 2 5 []
      [.setOutput true, .setState false, .getState] (by decide)).2 (fun _ _ => true) [] with
    | ⟨res, t, hrun, hlog, _⟩ => ⟨res, t, hrun, hlog⟩⟩

/-- C14: for a non-null handle, `gpioGetState` returns the boolean the state-read
primitive returns for the pin's `(port, bit)`, whatever the primitive does, and
leaves the memory of the pin objects unchanged. -/
theorem gpioGetState_returns_primitive {Hw : Type} (hal : Hal Hw) (s : GpioState Hw)
    (self : Nat) (hs : self ≠ NULL) :
    ∃ t, gpioGetState hal s self =
        some ((hal.HAL_GPIO_GET_STATE (s.mem (self + gpio_s.port)) (s.mem (self + gpio_s.bit))
          s.hw).1, t) ∧
      t.mem = s.mem ∧
      t.hw = (hal.HAL_GPIO_GET_STATE (s.mem (self + gpio_s.port)) (s.mem (self + gpio_s.bit))
        s.hw).2 := by
  refine ⟨{ mem := s.mem
            hw := (hal.HAL_GPIO_GET_STATE (s.mem (self + gpio_s.port))
              (s.mem (self + gpio_s.bit)) s.hw).2 }, ?_, rfl, rfl⟩
  simp [gpioGetState, hs]

/-- Witness of C14: the pin at address 8 for port 2, bit 5, on hardware that reads
true exactly for `(2, 5)`. -/
theorem gpioGetState_returns_primitive_witness :
    (8 : Nat) ≠ NULL ∧
      ∃ t, gpioGetState (recordingHal fun port bit => decide (port = 2 ∧ bit = 5))
          { mem := (gpioCreate (allocAt 8) (fun _ => 0xAA) 2 5).2, hw := [] } 8 =
        some (true, t) ∧ t.mem = (gpioCreate (allocAt 8) (fun _ => 0xAA) 2 5).2 :=
  ⟨by decide,
    match gpioGetState_returns_primitive
      (recordingHal fun port bit => decide (port = 2 ∧ bit = 5))
      { mem := (gpioCreate (allocAt 8) (fun _ => 0xAA) 2 5).2, hw := [] } 8 (by decide) with
    | ⟨t, hget, hmem, _⟩ => ⟨t, hget, hmem⟩⟩

/-- C15, what the code does: in the fixed-pool configuration, from the
zero-initialised pool, `gpioCreate(0, b1)` and then `gpioCreate(0, b2)` return the
same non-null handle; the first call leaves the `used` byte of slot 0 at zero, and
the second call overwrites the `bit` member the first handle had. -/
theorem gpioCreate_pool_same_handle (instances b1 b2 : Nat) :
    (gpioCreate (allocateInstance instances) (fun _ => 0) 0 b1).1 ≠ NULL ∧
      (gpioCreate (allocateInstance instances)
        (gpioCreate (allocateInstance instances) (fun _ => 0) 0 b1).2 0 b2).1 =
        (gpioCreate (allocateInstance instances) (fun _ => 0) 0 b1).1 ∧
      (gpioCreate (allocateInstance instances) (fun _ => 0) 0 b1).2
        (instances + 0 * gpio_s.size + gpio_s.used) = 0 ∧
      (gpioCreate (allocateInstance instances) (fun _ => 0) 0 b1).2
        ((gpioCreate (allocateInstance instances) (fun _ => 0) 0 b1).1 + gpio_s.bit) = b1 ∧
      (gpioCreate (allocateInstance instances)
        (gpioCreate (allocateInstance instances) (fun _ => 0) 0 b1).2 0 b2).2
        ((gpioCreate (allocateInstance instances) (fun _ => 0) 0 b1).1 + gpio_s.bit) = b2 := by
  obtain ⟨h1, h2, h3⟩ := gpioCreate_pool_port_zero instances (fun _ => 0) b1 rfl
  obtain ⟨k1, _, k3⟩ := gpioCreate_pool_port_zero instances
    (gpioCreate (allocateInstance instances) (fun _ => 0) 0 b1).2 b2 h2
  refine ⟨?_, ?_, ?_, ?_, ?_⟩
  · rw [h1]
    simp [gpio_s.used, NULL]
  · rw [k1, h1]
  · simpa using h2
  · rw [h1]
    exact h3
  · rw [h1]
    exact k3

end Gpio
